import Mathlib

/-!
# Verification of `broadcaster_multiple.c`

A shallow embedding of `src/broadcaster_multiple/src/broadcaster_multiple.c`:

* the preprocessor arithmetic that sizes `mfg_data` (`BT_MFG_DATA_LEN` and the
  macros it is built from), in C unsigned arithmetic;
* the record encoder `Adv_handler_set_mdata`, a straight-line sequence of
  byte stores into the global `manufacture_data[40]`;
* the part of `broadcaster_multiple` that touches those globals: the call of
  the encoder, the 40-byte `memcpy` into `mfg_data`, and the `ad` element that
  is handed to `bt_le_ext_adv_set_data`.

Bytes (`uint8_t`) are natural numbers; a cast `(uint8_t) e` is `e % 256`.
`unsigned int` is 32 bits wide; the width of `size_t` is a parameter `w`.
Calls into the BLE stack and `printk` do not touch the two globals and are not
modelled.
-/

namespace BroadcasterMultiple

/-! ## Machine arithmetic -/

/-- Width of `unsigned int` in bits. -/
def UINT_BITS : Nat := 32

/-- Conversion of a value to an unsigned type of `bits` bits. -/
def wrap (bits x : Nat) : Nat := x % 2 ^ bits

/-- Unsigned addition in a type of `bits` bits. -/
def uadd (bits a b : Nat) : Nat := (wrap bits a + wrap bits b) % 2 ^ bits

/-- Unsigned subtraction in a type of `bits` bits (wraps below zero). -/
def usub (bits a b : Nat) : Nat := (wrap bits a + 2 ^ bits - wrap bits b) % 2 ^ bits

/-- The cast `(uint8_t) e`. -/
def to_uint8 (x : Nat) : Nat := x % 256

/-- Zephyr's `MIN(a, b)`, that is `(((a) < (b)) ? (a) : (b))`. -/
def MIN (a b : Nat) : Nat := if a < b then a else b

/-! ## Constants (lines 12-75) -/

def APPLICATION_ADV_MANU_COMPANY_ID : Nat := 0x03DD
def APPLICATION_ADV_INCOMP_16B_UUID : Nat := 0xFE43
/-- The C literal `06` (octal). -/
def APPLICATION_SW_VERSION_LOW : Nat := 0o6
/-- The C literal `01` (octal). -/
def APPLICATION_SW_VERSION_HIGH : Nat := 0o1
def APPLICATION_PROTOCOL_ID : Nat := 0x06
def APPLICATION_PRODUCT_ID : Nat := 0x05
def ADV_PROTOCOL_ID_DAT : Nat := 0x06
def ADV_BC_SW_VERSION_LOW_DAT : Nat := APPLICATION_SW_VERSION_LOW
def ADV_BC_SW_VERSION_HIGH_DAT : Nat := APPLICATION_SW_VERSION_HIGH

/-- The value `BT_AD_DATA_LEN_MAX` takes when `CONFIG_BT_CTLR_ADV_DATA_LEN_MAX`
is not defined. -/
def BT_AD_DATA_LEN_MAX_DEFAULT : Nat := 31

def BT_AD_DATA_FORMAT_LEN_SIZE : Nat := 1
def BT_AD_DATA_FORMAT_TYPE_SIZE : Nat := 1
def BT_AD_DATA_FORMAT_LEN_MAX : Nat := 255

/-- The macro `BT_DEVICE_NAME_LEN`, `sizeof(CONFIG_BT_DEVICE_NAME) - 1U`: the
string literal has `n` characters and a terminating null, and `sizeof` has type
`size_t` (`w` bits). -/
def BT_DEVICE_NAME_LEN (w n : Nat) : Nat := usub w (n + 1) 1

/-- The macro `BT_DEVICE_NAME_AD_DATA_LEN`: `1U + 1U` is an `unsigned int` sum, to
which the `size_t` name length is added. -/
def BT_DEVICE_NAME_AD_DATA_LEN (w n : Nat) : Nat :=
  uadd w (uadd UINT_BITS BT_AD_DATA_FORMAT_LEN_SIZE BT_AD_DATA_FORMAT_TYPE_SIZE)
    (BT_DEVICE_NAME_LEN w n)

/-- The macro `BT_MFG_DATA_LEN_MAX` for `BT_AD_DATA_LEN_MAX = L`, in
`unsigned int` arithmetic. -/
def BT_MFG_DATA_LEN_MAX (L : Nat) : Nat :=
  MIN (usub UINT_BITS BT_AD_DATA_FORMAT_LEN_MAX BT_AD_DATA_FORMAT_TYPE_SIZE)
    (usub UINT_BITS (usub UINT_BITS L BT_AD_DATA_FORMAT_LEN_SIZE) BT_AD_DATA_FORMAT_TYPE_SIZE)

/-- The macro `BT_MFG_DATA_LEN` for `BT_AD_DATA_LEN_MAX = L` and a device name
of `n` characters. The subtraction of the `size_t` operand and the comparison
inside `MIN` are carried out in `size_t`. -/
def BT_MFG_DATA_LEN (w L n : Nat) : Nat :=
  MIN (wrap w (BT_MFG_DATA_LEN_MAX L))
    (usub w
      (usub UINT_BITS (usub UINT_BITS L BT_AD_DATA_FORMAT_LEN_SIZE) BT_AD_DATA_FORMAT_TYPE_SIZE)
      (BT_DEVICE_NAME_AD_DATA_LEN w n))

/-! ## The record encoder (lines 96, 134-179) -/

/-- Contents of `static uint8_t manufacture_data[40]`. -/
abbrev ManufactureData := Fin 40 → Nat

/-- The initial contents `{0}` of `manufacture_data`. -/
def manufacture_data_init : ManufactureData := fun _ => 0

/-- The assignment `buf[i] = v`. -/
def store (buf : ManufactureData) (i : Fin 40) (v : Nat) : ManufactureData :=
  fun j => if j = i then v else buf j

/-- The assignment statements of `Adv_handler_set_mdata`, in source order, each
as (index, value stored). -/
def Adv_handler_set_mdata_stmts : List (Fin 40 × Nat) :=
  [ (0, to_uint8 APPLICATION_ADV_MANU_COMPANY_ID),
    (1, to_uint8 (APPLICATION_ADV_MANU_COMPANY_ID >>> 8)),
    (2, to_uint8 APPLICATION_PROTOCOL_ID),
    (3, to_uint8 APPLICATION_PRODUCT_ID),
    (4, to_uint8 0x85),
    (5, to_uint8 0x3C),
    (6, to_uint8 0x85),
    (7, to_uint8 0x36),
    (8, to_uint8 0x00),
    (9, to_uint8 0x02),
    (10, to_uint8 0x60),
    (11, to_uint8 0x00),
    (12, to_uint8 0x00),
    (13, to_uint8 0x00),
    (14, to_uint8 0x00),
    (15, to_uint8 0x00),
    (16, to_uint8 0x00),
    (17, to_uint8 0xB4),
    (18, to_uint8 0x00),
    (19, to_uint8 0x64),
    (20, to_uint8 0xff),
    (21, to_uint8 0xdd) ]

/-- Run a sequence of byte stores on the buffer. -/
def run_stores (stmts : List (Fin 40 × Nat)) (buf : ManufactureData) : ManufactureData :=
  stmts.foldl (fun b st => store b st.1 st.2) buf

/-- The function `Adv_handler_set_mdata`: the effect on `manufacture_data`. -/
def Adv_handler_set_mdata (manufacture_data : ManufactureData) : ManufactureData :=
  run_stores Adv_handler_set_mdata_stmts manufacture_data

/-- Bytes 4..8 read as a little-endian integer. -/
def serial_number_le (buf : ManufactureData) : Nat :=
  buf 4 + 256 * buf 5 + 256 ^ 2 * buf 6 + 256 ^ 3 * buf 7 + 256 ^ 4 * buf 8

/-! ## The advertising buffer and `broadcaster_multiple` (lines 78-131) -/

/-- The initializer list of `mfg_data` (lines 78-90). -/
def mfg_data_initializer : List Nat :=
  [ 0xFF, 0xEE, 0xf1, 0xef, 0xf2, 0xf5, 0xf9, 0xfd, 0x00, 0x04, 0x09,
    0x0b, 0x0f, 0x12, 0x15, 0x17, 0x18, 0x1a, 0x1a, 0x1a, 0x19, 0x17, 0x16,
    0x14, 0x11, 0x10, 0x0e, 0x0c, 0x0a, 0x08, 0x06, 0x05, 0x03, 0x01, 0x00,
    0xfd, 0xfc, 0xfa, 0xf9, 0xf7, 0xf5, 0xf4, 0xf3, 0xf1, 0xef, 0xf3, 0xf6,
    0xfa, 0xfd, 0x02, 0x06, 0x09, 0x0e, 0x10, 0x14, 0x14, 0x17, 0x19, 0x19,
    0x1a, 0x1a, 0x19, 0x17, 0x15, 0x13, 0x11, 0x0f, 0x0d, 0x0c, 0x09, 0x08,
    0x06, 0x03, 0x02, 0x00, 0xff, 0xfd, 0xfb, 0xf9, 0xf8, 0xf6, 0xf5, 0xf3,
    0xf2, 0xf0, 0xf0, 0xf4, 0xf8, 0xfc, 0x00, 0x04, 0x07, 0x0b, 0x0e, 0x11,
    0x13, 0x16, 0x18, 0x19, 0x1a, 0x1b, 0x19, 0x18, 0x17, 0x15, 0x13, 0x11,
    0x0f, 0x0d, 0x0b, 0x09, 0x07, 0x05, 0x03, 0x02, 0x00, 0xfe, 0xfd, 0xfb,
    0xf9, 0xf8, 0xf6, 0xf5, 0xf3, 0xf1, 0xf0, 0xf2, 0xf5, 0xf9, 0xfd, 0x00,
    0x05, 0x08, 0x0b, 0x10, 0x12, 0x15, 0x17, 0x19, 0x19, 0x1a, 0x1a, 0x19,
    0x18, 0x16, 0x14, 0x12, 0x10, 0x0e, 0x0c, 0x0a, 0x09, 0x07 ]

/-- Initial contents of `static uint8_t mfg_data[BT_MFG_DATA_LEN]` as an array of
`len` bytes: the initializers in order, zero for the elements that have none;
initializers past the end of the array are not stored. -/
def mfg_data_init (len : Nat) : List Nat :=
  (mfg_data_initializer ++ List.replicate (len - mfg_data_initializer.length) 0).take len

/-- The two global arrays of the file. -/
structure Globals where
  mfg_data : List Nat
  manufacture_data : ManufactureData

/-- The globals at program start, for `size_t` of `w` bits,
`BT_AD_DATA_LEN_MAX = L` and a device name of `n` characters. -/
def globals_init (w L n : Nat) : Globals :=
  ⟨mfg_data_init (BT_MFG_DATA_LEN w L n), manufacture_data_init⟩

/-- Zephyr's `struct bt_data`: `uint8_t type; uint8_t data_len; const uint8_t *data;`.
The pointer is represented by the contents of the array it points to. -/
structure bt_data where
  type : Nat
  data_len : Nat
  data : List Nat

/-- Zephyr's AD type code for Manufacturer Specific Data. -/
def BT_DATA_MANUFACTURER_DATA : Nat := 0xff

/-- Zephyr's `BT_DATA(_type, _data, _data_len)`; `type` and `data_len` are
`uint8_t` fields. -/
def BT_DATA (type : Nat) (data : List Nat) (data_len : Nat) : bt_data :=
  ⟨to_uint8 type, to_uint8 data_len, data⟩

/-- The bytes an AD element denotes: `data_len` bytes starting at `data`. -/
def ad_data_bytes (d : bt_data) : List Nat := d.data.take d.data_len

/-- The value of `sizeof(mfg_data)`, a `size_t`. -/
def sizeof_mfg_data (w L n : Nat) : Nat := wrap w (BT_MFG_DATA_LEN w L n * 1)

/-- The array `ad` (lines 92-94), read while `mfg_data` holds the given
contents. -/
def ad (w L n : Nat) (mfg_data : List Nat) : List bt_data :=
  [BT_DATA BT_DATA_MANUFACTURER_DATA mfg_data (sizeof_mfg_data w L n)]

/-- The call `memcpy(dst, src, n)` on two arrays: it has a result when `n` bytes
lie inside both arrays, and then replaces the first `n` bytes of `dst`. -/
def memcpy (dst src : List Nat) (n : Nat) : Option (List Nat) :=
  if n ≤ dst.length ∧ n ≤ src.length then some (src.take n ++ dst.drop n) else none

/-- The function `broadcaster_multiple`, as far as the globals are concerned: it
runs the encoder, copies 40 bytes of `manufacture_data` into `mfg_data`, and
passes `ad` to `bt_le_ext_adv_set_data`. The result is the new globals and the AD
array passed to the stack, or `none` when the copy leaves an array. -/
def broadcaster_multiple (w L n : Nat) (g : Globals) : Option (Globals × List bt_data) :=
  let manufacture_data := Adv_handler_set_mdata g.manufacture_data
  match memcpy g.mfg_data (List.ofFn manufacture_data) 40 with
  | none => none
  | some mfg_data => some (⟨mfg_data, manufacture_data⟩, ad w L n mfg_data)

/-- The 22 bytes of the manufacturer record, as the encoder writes them. -/
def record_bytes : List Nat :=
  [0xDD, 0x03, 0x06, 0x05, 0x85, 0x3C, 0x85, 0x36, 0x00, 0x02, 0x60, 0x00, 0x00, 0x00,
   0x00, 0x00, 0x00, 0xB4, 0x00, 0x64, 0xff, 0xdd]

/-! ## Encoder facts -/

/-- After the encoder, the byte at each offset below 22 is a constant and every
other byte is unchanged. -/
theorem Adv_handler_set_mdata_apply (s : ManufactureData) (i : Fin 40) :
    Adv_handler_set_mdata s i =
      if h : i.val < 22 then record_bytes.get ⟨i.val, h⟩ else s i := by
  fin_cases i <;> rfl

/-! ## Arithmetic lemmas -/

theorem MIN_eq_min (a b : Nat) : MIN a b = min a b := by
  unfold MIN
  split <;> omega

theorem MIN_le_left (a b : Nat) : MIN a b ≤ a := by
  rw [MIN_eq_min]; exact Nat.min_le_left a b

theorem wrap_le (bits x : Nat) : wrap bits x ≤ x := Nat.mod_le _ _

theorem wrap_eq {bits x : Nat} (h : x < 2 ^ bits) : wrap bits x = x :=
  Nat.mod_eq_of_lt h

theorem uadd_eq {bits a b : Nat} (h : a + b < 2 ^ bits) : uadd bits a b = a + b := by
  unfold uadd
  rw [wrap_eq (by omega : a < 2 ^ bits), wrap_eq (by omega : b < 2 ^ bits)]
  exact Nat.mod_eq_of_lt h

theorem usub_eq {bits a b : Nat} (hba : b ≤ a) (ha : a < 2 ^ bits) :
    usub bits a b = a - b := by
  unfold usub
  rw [wrap_eq ha, wrap_eq (by omega : b < 2 ^ bits)]
  have h : a + 2 ^ bits - b = (a - b) + 2 ^ bits := by omega
  rw [h, Nat.add_mod_right]
  exact Nat.mod_eq_of_lt (by omega)

theorem two_pow_uint_bits : 2 ^ UINT_BITS = 4294967296 := by decide

theorem BT_MFG_DATA_LEN_MAX_le (L : Nat) : BT_MFG_DATA_LEN_MAX L ≤ 254 := by
  unfold BT_MFG_DATA_LEN_MAX
  exact MIN_le_left _ _

theorem BT_MFG_DATA_LEN_le_max (w L n : Nat) :
    BT_MFG_DATA_LEN w L n ≤ BT_MFG_DATA_LEN_MAX L := by
  unfold BT_MFG_DATA_LEN
  exact Nat.le_trans (MIN_le_left _ _) (wrap_le _ _)

theorem BT_MFG_DATA_LEN_MAX_eq {L : Nat} (hL : L < 2 ^ 32) (h2 : 2 ≤ L) :
    BT_MFG_DATA_LEN_MAX L = min 254 (L - 2) := by
  have hU := two_pow_uint_bits
  unfold BT_MFG_DATA_LEN_MAX BT_AD_DATA_FORMAT_LEN_MAX BT_AD_DATA_FORMAT_TYPE_SIZE
    BT_AD_DATA_FORMAT_LEN_SIZE
  rw [usub_eq (by omega : 1 ≤ L) (by omega), usub_eq (by omega : 1 ≤ L - 1) (by omega),
    usub_eq (by omega : 1 ≤ 255) (by omega), MIN_eq_min]
  omega

theorem BT_DEVICE_NAME_AD_DATA_LEN_eq {w n : Nat} (hn : n + 4 < 2 ^ w) :
    BT_DEVICE_NAME_AD_DATA_LEN w n = 2 + n := by
  have hU := two_pow_uint_bits
  unfold BT_DEVICE_NAME_AD_DATA_LEN BT_DEVICE_NAME_LEN BT_AD_DATA_FORMAT_TYPE_SIZE
    BT_AD_DATA_FORMAT_LEN_SIZE
  rw [usub_eq (by omega : 1 ≤ n + 1) (by omega), uadd_eq (by omega : 1 + 1 < 2 ^ UINT_BITS),
    uadd_eq (by omega)]
  omega

/-- Without wrap-around, `BT_MFG_DATA_LEN` is the least of 254, `L - 2` and
`L - 4 - n`. -/
theorem BT_MFG_DATA_LEN_eq {w L n : Nat} (hw : 32 ≤ w) (hL : L < 2 ^ 32) (hn : n + 4 ≤ L) :
    BT_MFG_DATA_LEN w L n = min 254 (min (L - 2) (L - 4 - n)) := by
  have hU := two_pow_uint_bits
  have hW : 2 ^ 32 ≤ 2 ^ w := Nat.pow_le_pow_right (by decide) hw
  have hmax := BT_MFG_DATA_LEN_MAX_eq hL (by omega : 2 ≤ L)
  have hname := BT_DEVICE_NAME_AD_DATA_LEN_eq (by omega : n + 4 < 2 ^ w)
  unfold BT_MFG_DATA_LEN
  rw [hmax, hname]
  unfold BT_AD_DATA_FORMAT_TYPE_SIZE BT_AD_DATA_FORMAT_LEN_SIZE
  rw [usub_eq (by omega : 1 ≤ L) (by omega), usub_eq (by omega : 1 ≤ L - 1) (by omega),
    usub_eq (by omega : 2 + n ≤ L - 1 - 1) (by omega), wrap_eq (by omega), MIN_eq_min]
  omega


/-! ## Buffer lemmas -/

theorem mfg_data_init_length (len : Nat) : (mfg_data_init len).length = len := by
  unfold mfg_data_init
  rw [List.length_take, List.length_append, List.length_replicate]
  omega

theorem memcpy_eq_some {dst src : List Nat} {n : Nat} (hd : n ≤ dst.length)
    (hs : n ≤ src.length) : memcpy dst src n = some (src.take n ++ dst.drop n) := by
  unfold memcpy
  rw [if_pos ⟨hd, hs⟩]

theorem memcpy_eq_none {dst src : List Nat} {n : Nat} (hd : dst.length < n) :
    memcpy dst src n = none := by
  unfold memcpy
  rw [if_neg (by omega)]

theorem ofFn_take_record (s : ManufactureData) :
    (List.ofFn (Adv_handler_set_mdata s)).take 22 = record_bytes := by
  rfl

theorem broadcaster_multiple_eq_some {g : Globals} (w L n : Nat)
    (h : 40 ≤ g.mfg_data.length) :
    broadcaster_multiple w L n g =
      some (⟨List.ofFn (Adv_handler_set_mdata g.manufacture_data) ++ g.mfg_data.drop 40,
              Adv_handler_set_mdata g.manufacture_data⟩,
            ad w L n (List.ofFn (Adv_handler_set_mdata g.manufacture_data)
              ++ g.mfg_data.drop 40)) := by
  have hs : 40 ≤ (List.ofFn (Adv_handler_set_mdata g.manufacture_data)).length := by
    rw [List.length_ofFn]
  have ht : (List.ofFn (Adv_handler_set_mdata g.manufacture_data)).take 40
      = List.ofFn (Adv_handler_set_mdata g.manufacture_data) :=
    List.take_of_length_le (by rw [List.length_ofFn])
  unfold broadcaster_multiple
  simp only [memcpy_eq_some h hs, ht]

theorem broadcaster_multiple_eq_none {g : Globals} (w L n : Nat)
    (h : g.mfg_data.length < 40) : broadcaster_multiple w L n g = none := by
  unfold broadcaster_multiple
  simp only [memcpy_eq_none h]

theorem broadcaster_multiple_isSome_iff (w L n : Nat) (g : Globals) :
    (broadcaster_multiple w L n g).isSome = true ↔ 40 ≤ g.mfg_data.length := by
  by_cases h : 40 ≤ g.mfg_data.length
  · rw [broadcaster_multiple_eq_some w L n h]
    exact ⟨fun _ => h, fun _ => rfl⟩
  · rw [broadcaster_multiple_eq_none w L n (by omega)]
    exact ⟨fun hc => (by cases hc), fun hc => absurd hc h⟩

theorem BT_MFG_DATA_LEN_lt_two_pow (w L n : Nat) : BT_MFG_DATA_LEN w L n < 2 ^ w := by
  unfold BT_MFG_DATA_LEN
  exact Nat.lt_of_le_of_lt (MIN_le_left _ _) (Nat.mod_lt _ (Nat.two_pow_pos w))

theorem sizeof_mfg_data_eq (w L n : Nat) : sizeof_mfg_data w L n = BT_MFG_DATA_LEN w L n := by
  unfold sizeof_mfg_data
  rw [Nat.mul_one, wrap_eq (BT_MFG_DATA_LEN_lt_two_pow w L n)]

theorem ad_data_len (w L n : Nat) (m : List Nat) :
    (ad w L n m).map bt_data.data_len = [BT_MFG_DATA_LEN w L n] := by
  have h := Nat.le_trans (BT_MFG_DATA_LEN_le_max w L n) (BT_MFG_DATA_LEN_MAX_le L)
  simp only [ad, BT_DATA, List.map, sizeof_mfg_data_eq, to_uint8]
  rw [Nat.mod_eq_of_lt (by omega)]

/-- What `broadcaster_multiple` hands to the stack when the copy is in bounds. -/
theorem broadcaster_multiple_ad (w L n : Nat) (g : Globals)
    (hlen : g.mfg_data.length = BT_MFG_DATA_LEN w L n)
    (h40 : 40 ≤ BT_MFG_DATA_LEN w L n) :
    ∃ (g' : Globals) (d : bt_data),
      broadcaster_multiple w L n g = some (g', [d]) ∧
      d.type = BT_DATA_MANUFACTURER_DATA ∧
      d.data_len = BT_MFG_DATA_LEN w L n ∧
      ad_data_bytes d
        = List.ofFn (Adv_handler_set_mdata g.manufacture_data) ++ g.mfg_data.drop 40 ∧
      (ad_data_bytes d).length = BT_MFG_DATA_LEN w L n ∧
      (ad_data_bytes d).take 22
        = (List.ofFn (Adv_handler_set_mdata g.manufacture_data)).take 22 ∧
      (ad_data_bytes d).take 22 = record_bytes := by
  have hle := Nat.le_trans (BT_MFG_DATA_LEN_le_max w L n) (BT_MFG_DATA_LEN_MAX_le L)
  have hcopy : (List.ofFn (Adv_handler_set_mdata g.manufacture_data) ++ g.mfg_data.drop 40).length
      = BT_MFG_DATA_LEN w L n := by
    rw [List.length_append, List.length_ofFn, List.length_drop, hlen]
    omega
  have hdl : to_uint8 (sizeof_mfg_data w L n) = BT_MFG_DATA_LEN w L n := by
    rw [sizeof_mfg_data_eq]
    exact Nat.mod_eq_of_lt (by omega)
  have hbytes : ad_data_bytes (BT_DATA BT_DATA_MANUFACTURER_DATA
      (List.ofFn (Adv_handler_set_mdata g.manufacture_data) ++ g.mfg_data.drop 40)
      (sizeof_mfg_data w L n))
      = List.ofFn (Adv_handler_set_mdata g.manufacture_data) ++ g.mfg_data.drop 40 := by
    unfold ad_data_bytes BT_DATA
    simp only [hdl]
    exact List.take_of_length_le (by omega)
  have htake : (List.ofFn (Adv_handler_set_mdata g.manufacture_data)
      ++ g.mfg_data.drop 40).take 22
      = (List.ofFn (Adv_handler_set_mdata g.manufacture_data)).take 22 :=
    List.take_append_of_le_length (by rw [List.length_ofFn]; decide)
  refine ⟨_, _, broadcaster_multiple_eq_some w L n (by omega), rfl, hdl, hbytes, ?_, ?_, ?_⟩
  · rw [hbytes, hcopy]
  · rw [hbytes, htake]
  · rw [hbytes, htake, ofFn_take_record]

/-! ## The claims -/

/-- C1: for every prior content of `manufacture_data`, after
`Adv_handler_set_mdata` bytes 0 and 1 hold the company ID 0x03DD low byte first:
byte 0 is `0x03DD mod 256 = 0xDD` and byte 1 is `0x03DD div 256 = 0x03`. -/
theorem C1_company_id_low_byte_first (s : ManufactureData) :
    APPLICATION_ADV_MANU_COMPANY_ID = 0x03DD ∧
    Adv_handler_set_mdata s 0 = APPLICATION_ADV_MANU_COMPANY_ID % 256 ∧
    Adv_handler_set_mdata s 0 = 0xDD ∧
    Adv_handler_set_mdata s 1 = APPLICATION_ADV_MANU_COMPANY_ID / 256 ∧
    Adv_handler_set_mdata s 1 = 0x03 := by
  have h0 : Adv_handler_set_mdata s 0 = 0xDD := rfl
  have h1 : Adv_handler_set_mdata s 1 = 0x03 := rfl
  refine ⟨rfl, ?_, h0, ?_, h1⟩
  · rw [h0]; norm_num [APPLICATION_ADV_MANU_COMPANY_ID]
  · rw [h1]; norm_num [APPLICATION_ADV_MANU_COMPANY_ID]

/-- C2: for every prior content of the buffer, after `Adv_handler_set_mdata`
bytes 4..7 are 0x85, 0x3C, 0x85, 0x36 and byte 8 is 0x00, so that bytes 4..8 read
as a little-endian integer are the serial number 0x36853C85 = 914701445. -/
theorem C2_serial_number_bytes (s : ManufactureData) :
    Adv_handler_set_mdata s 4 = 0x85 ∧
    Adv_handler_set_mdata s 5 = 0x3C ∧
    Adv_handler_set_mdata s 6 = 0x85 ∧
    Adv_handler_set_mdata s 7 = 0x36 ∧
    Adv_handler_set_mdata s 8 = 0x00 ∧
    serial_number_le (Adv_handler_set_mdata s) = 0x36853C85 ∧
    serial_number_le (Adv_handler_set_mdata s) = 914701445 := by
  have h4 : Adv_handler_set_mdata s 4 = 0x85 := rfl
  have h5 : Adv_handler_set_mdata s 5 = 0x3C := rfl
  have h6 : Adv_handler_set_mdata s 6 = 0x85 := rfl
  have h7 : Adv_handler_set_mdata s 7 = 0x36 := rfl
  have h8 : Adv_handler_set_mdata s 8 = 0x00 := rfl
  refine ⟨h4, h5, h6, h7, h8, ?_, ?_⟩ <;>
    · unfold serial_number_le
      rw [h4, h5, h6, h7, h8]
      norm_num

/-- C3: for every prior content of the buffer, after `Adv_handler_set_mdata`
byte 19 (State of Charge) is 0x64, the value 100. -/
theorem C3_state_of_charge_byte (s : ManufactureData) :
    Adv_handler_set_mdata s 19 = 0x64 ∧ Adv_handler_set_mdata s 19 = 100 :=
  ⟨rfl, rfl⟩

/-- C4: the encoder produces exactly 22 bytes. Its assignment statements store to
the offsets 0, 1, ..., 21, each once and in this order, and to no other offset;
for every prior buffer the byte at every offset below 22 is the stored constant
(it does not depend on the prior buffer) and the bytes at offsets 22..39 keep
their prior values. -/
theorem C4_encoder_writes_exactly_22_bytes :
    Adv_handler_set_mdata_stmts.map (fun st => st.1.val) = List.range 22 ∧
    Adv_handler_set_mdata_stmts.length = 22 ∧
    ∀ (s : ManufactureData) (i : Fin 40),
      (∀ h : i.val < 22, Adv_handler_set_mdata s i = record_bytes.get ⟨i.val, h⟩) ∧
      (i.val < 22 → ∀ t : ManufactureData,
        Adv_handler_set_mdata s i = Adv_handler_set_mdata t i) ∧
      (22 ≤ i.val → Adv_handler_set_mdata s i = s i) := by
  refine ⟨by decide, rfl, fun s i => ⟨fun h => ?_, fun h t => ?_, fun h => ?_⟩⟩
  · rw [Adv_handler_set_mdata_apply, dif_pos h]
  · rw [Adv_handler_set_mdata_apply, Adv_handler_set_mdata_apply, dif_pos h, dif_pos h]
  · rw [Adv_handler_set_mdata_apply, dif_neg (by omega)]

/-- Witness for C4 at the zero-initialised buffer and at a buffer holding 7
everywhere: offset 19 holds 0x64 in both results, offset 30 keeps its value. -/
theorem C4_encoder_writes_exactly_22_bytes_witness :
    Adv_handler_set_mdata manufacture_data_init 19 = Adv_handler_set_mdata (fun _ => 7) 19 ∧
    Adv_handler_set_mdata (fun _ => 7) 30 = 7 :=
  ⟨(C4_encoder_writes_exactly_22_bytes.2.2 manufacture_data_init 19).2.1 (by decide)
      (fun _ => 7),
   (C4_encoder_writes_exactly_22_bytes.2.2 (fun _ => 7) 30).2.2 (by decide)⟩

/-- C7: re-encoding is idempotent and deterministic. Running
`Adv_handler_set_mdata` twice leaves the same `manufacture_data` as running it
once, and from any two initial buffers the results agree on every byte 0..21. -/
theorem C7_encoder_idempotent_deterministic (s t : ManufactureData) :
    Adv_handler_set_mdata (Adv_handler_set_mdata s) = Adv_handler_set_mdata s ∧
    ∀ i : Fin 40, i.val < 22 → Adv_handler_set_mdata s i = Adv_handler_set_mdata t i := by
  constructor
  · funext j
    by_cases h : j.val < 22
    · rw [Adv_handler_set_mdata_apply, Adv_handler_set_mdata_apply s, dif_pos h, dif_pos h]
    · rw [Adv_handler_set_mdata_apply, dif_neg h]
  · intro i hi
    rw [Adv_handler_set_mdata_apply, Adv_handler_set_mdata_apply, dif_pos hi, dif_pos hi]

/-- Witness for C7 at the zero-initialised buffer, a buffer holding 7 everywhere
and offset 21. -/
theorem C7_encoder_idempotent_deterministic_witness :
    Adv_handler_set_mdata (Adv_handler_set_mdata manufacture_data_init)
      = Adv_handler_set_mdata manufacture_data_init ∧
    Adv_handler_set_mdata manufacture_data_init 21 = Adv_handler_set_mdata (fun _ => 7) 21 :=
  ⟨(C7_encoder_idempotent_deterministic manufacture_data_init (fun _ => 7)).1,
   (C7_encoder_idempotent_deterministic manufacture_data_init (fun _ => 7)).2 21 (by decide)⟩

/-- C8 (the code at the zero-initialised buffer): bytes 20 and 21, the firmware
version bytes, are 0xff and 0xdd, while `ADV_BC_SW_VERSION_LOW_DAT` is 6 and
`ADV_BC_SW_VERSION_HIGH_DAT` is 1. -/
theorem C8_firmware_version_bytes_differ :
    Adv_handler_set_mdata manufacture_data_init 20 = 0xff ∧
    Adv_handler_set_mdata manufacture_data_init 21 = 0xdd ∧
    ADV_BC_SW_VERSION_LOW_DAT = 6 ∧ ADV_BC_SW_VERSION_HIGH_DAT = 1 ∧
    Adv_handler_set_mdata manufacture_data_init 20 ≠ to_uint8 ADV_BC_SW_VERSION_LOW_DAT ∧
    Adv_handler_set_mdata manufacture_data_init 21 ≠ to_uint8 ADV_BC_SW_VERSION_HIGH_DAT :=
  ⟨rfl, rfl, rfl, rfl, by decide, by decide⟩

/-- C9 (the code at the zero-initialised buffer): byte 10, State of Health, is
0x60, the value 96, not 100; byte 19, State of Charge, is 100. -/
theorem C9_state_of_health_byte_is_96 :
    Adv_handler_set_mdata manufacture_data_init 10 = 0x60 ∧
    Adv_handler_set_mdata manufacture_data_init 10 = 96 ∧
    Adv_handler_set_mdata manufacture_data_init 10 ≠ 100 ∧
    Adv_handler_set_mdata manufacture_data_init 19 = 100 :=
  ⟨rfl, rfl, by decide, rfl⟩

/-- C5 fails as stated: with 32-bit `size_t`, `BT_AD_DATA_LEN_MAX = 251` and a
10-character device name, `broadcaster_multiple` run from the initial globals
passes one AD element whose data length is 237, and it denotes 237 bytes, not
22; in the default configuration (`BT_AD_DATA_LEN_MAX = 31`, empty name) the
element `ad` is declared with data length 27. -/
theorem C5_ad_data_length_not_22 :
    (broadcaster_multiple 32 251 10 (globals_init 32 251 10)).map
        (fun r => r.2.map (fun d => (d.data_len, (ad_data_bytes d).length)))
      = some [(237, 237)] ∧
    (ad 32 BT_AD_DATA_LEN_MAX_DEFAULT 0 (globals_init 32 BT_AD_DATA_LEN_MAX_DEFAULT 0).mfg_data).map
        bt_data.data_len = [27] := by
  have hv : BT_MFG_DATA_LEN 32 251 10 = 237 := by decide
  constructor
  · obtain ⟨g', d, h, _, hdl, _, hbl, _⟩ :=
      broadcaster_multiple_ad 32 251 10 (globals_init 32 251 10) (mfg_data_init_length _)
        (by decide)
    rw [h]
    simp only [Option.map, List.map]
    rw [hdl, hbl, hv]
  · rw [ad_data_len]
    decide

/-- C5, amended: the AD element that `broadcaster_multiple` hands to the stack is
a Manufacturer Specific Data element over the whole array `mfg_data`: in every
configuration the one element of `ad` has type 0xFF and data length
`BT_MFG_DATA_LEN`. Whenever the 40-byte copy is in bounds
(`BT_MFG_DATA_LEN >= 40`), the element is handed over and its data is the 40
bytes of `manufacture_data` after the encoder followed by the bytes of
`mfg_data` from offset 40 on, so its first 22 data bytes are the encoder's bytes
0..21 (2 company-ID bytes, then 20 payload bytes). -/
theorem C5_ad_element_over_mfg_data (w L n : Nat) (g : Globals)
    (hlen : g.mfg_data.length = BT_MFG_DATA_LEN w L n) :
    (ad w L n g.mfg_data).map (fun d => (d.type, d.data_len))
      = [(BT_DATA_MANUFACTURER_DATA, BT_MFG_DATA_LEN w L n)] ∧
    (40 ≤ BT_MFG_DATA_LEN w L n →
      ∃ (g' : Globals) (d : bt_data),
        broadcaster_multiple w L n g = some (g', [d]) ∧
        d.type = BT_DATA_MANUFACTURER_DATA ∧
        d.data_len = BT_MFG_DATA_LEN w L n ∧
        ad_data_bytes d
          = List.ofFn (Adv_handler_set_mdata g.manufacture_data) ++ g.mfg_data.drop 40 ∧
        (ad_data_bytes d).length = BT_MFG_DATA_LEN w L n ∧
        (ad_data_bytes d).take 22
          = (List.ofFn (Adv_handler_set_mdata g.manufacture_data)).take 22 ∧
        (ad_data_bytes d).take 22 = record_bytes) := by
  refine ⟨?_, fun h40 => broadcaster_multiple_ad w L n g hlen h40⟩
  have h := ad_data_len w L n g.mfg_data
  simp only [ad, List.map, List.cons.injEq, and_true] at h ⊢
  rw [h]
  rfl

/-- Witness for C5 (amended): 32-bit `size_t`, `BT_AD_DATA_LEN_MAX = 251`, a
10-character device name, the initial globals; the element has data length 237
and its first 22 data bytes are the record. -/
theorem C5_ad_element_over_mfg_data_witness :
    (globals_init 32 251 10).mfg_data.length = BT_MFG_DATA_LEN 32 251 10 ∧
    40 ≤ BT_MFG_DATA_LEN 32 251 10 ∧
    ∃ (g' : Globals) (d : bt_data),
      broadcaster_multiple 32 251 10 (globals_init 32 251 10) = some (g', [d]) ∧
      d.type = BT_DATA_MANUFACTURER_DATA ∧
      d.data_len = BT_MFG_DATA_LEN 32 251 10 ∧
      ad_data_bytes d
        = List.ofFn (Adv_handler_set_mdata (globals_init 32 251 10).manufacture_data)
            ++ (globals_init 32 251 10).mfg_data.drop 40 ∧
      (ad_data_bytes d).length = BT_MFG_DATA_LEN 32 251 10 ∧
      (ad_data_bytes d).take 22
        = (List.ofFn (Adv_handler_set_mdata (globals_init 32 251 10).manufacture_data)).take 22 ∧
      (ad_data_bytes d).take 22 = record_bytes :=
  ⟨mfg_data_init_length _, by decide,
   (C5_ad_element_over_mfg_data 32 251 10 (globals_init 32 251 10)
     (mfg_data_init_length _)).2 (by decide)⟩

/-- C6 fails as stated: with the default `BT_AD_DATA_LEN_MAX = 31` and a
28-character device name the subtraction wraps, `BT_MFG_DATA_LEN` is 29, and
29 + 2 + (2 + 28) = 61 exceeds 31 (for 32-bit and for 64-bit `size_t`). -/
theorem C6_capacity_exceeded_for_long_name :
    BT_MFG_DATA_LEN 32 BT_AD_DATA_LEN_MAX_DEFAULT 28 = 29 ∧
    ¬ (BT_MFG_DATA_LEN 32 BT_AD_DATA_LEN_MAX_DEFAULT 28 + 2 + (2 + 28)
        ≤ BT_AD_DATA_LEN_MAX_DEFAULT) ∧
    ¬ (BT_MFG_DATA_LEN 64 BT_AD_DATA_LEN_MAX_DEFAULT 28 + 2 + (2 + 28)
        ≤ BT_AD_DATA_LEN_MAX_DEFAULT) := by
  decide

/-- C6, amended: for every maximum AD length `L = BT_AD_DATA_LEN_MAX` (an
`unsigned int` value) and every device-name length `n` whose AD block and the
manufacturer-data header fit, `n + 4 <= L`, the length `BT_MFG_DATA_LEN` computed
by the macros, plus its 2-byte AD length/type header, plus the device-name AD
block (`2 + n` bytes, the value of `BT_DEVICE_NAME_AD_DATA_LEN`), does not exceed
`L`. -/
theorem C6_capacity_within_budget (w L n : Nat) (hw : 32 ≤ w) (hL : L < 2 ^ 32)
    (hn : n + 4 ≤ L) :
    BT_DEVICE_NAME_AD_DATA_LEN w n = 2 + n ∧
    BT_MFG_DATA_LEN w L n
      + (BT_AD_DATA_FORMAT_LEN_SIZE + BT_AD_DATA_FORMAT_TYPE_SIZE) + (2 + n) ≤ L := by
  have hW : 2 ^ 32 ≤ 2 ^ w := Nat.pow_le_pow_right (by decide) hw
  refine ⟨BT_DEVICE_NAME_AD_DATA_LEN_eq (by omega), ?_⟩
  rw [BT_MFG_DATA_LEN_eq hw hL hn]
  unfold BT_AD_DATA_FORMAT_LEN_SIZE BT_AD_DATA_FORMAT_TYPE_SIZE
  omega

/-- Witness for C6 (amended): 32-bit `size_t`, the default maximum 31 and a
27-character device name, for which `BT_MFG_DATA_LEN` is 0. -/
theorem C6_capacity_within_budget_witness :
    (32 ≤ 32 ∧ 31 < 2 ^ 32 ∧ 27 + 4 ≤ 31) ∧
    BT_DEVICE_NAME_AD_DATA_LEN 32 27 = 2 + 27 ∧
    BT_MFG_DATA_LEN 32 31 27
      + (BT_AD_DATA_FORMAT_LEN_SIZE + BT_AD_DATA_FORMAT_TYPE_SIZE) + (2 + 27) ≤ 31 :=
  ⟨by decide, C6_capacity_within_budget 32 31 27 (by decide) (by decide) (by decide)⟩

/-- C10: the 40-byte copy from `manufacture_data` into `mfg_data` stays inside
the destination exactly when the destination is large enough. For every maximum
AD length `L` and device-name length `n` with `n + 4 <= L`, `mfg_data` has
`BT_MFG_DATA_LEN = min(254, L - 2, L - 4 - n)` bytes and the copy in
`broadcaster_multiple` is in bounds if and only if that number is at least 40.
For the default `L = 31` the destination has at most 27 bytes (for the `n` with
`n + 4 <= 31`), and the copy is out of bounds for every `n`. -/
theorem C10_copy_in_bounds_iff (w L n : Nat) (g : Globals) (hw : 32 ≤ w)
    (hL : L < 2 ^ 32) (hlen : g.mfg_data.length = BT_MFG_DATA_LEN w L n) :
    (n + 4 ≤ L →
      BT_MFG_DATA_LEN w L n = min 254 (min (L - 2) (L - 4 - n)) ∧
      ((broadcaster_multiple w L n g).isSome = true
        ↔ 40 ≤ min 254 (min (L - 2) (L - 4 - n)))) ∧
    (L = BT_AD_DATA_LEN_MAX_DEFAULT →
      (n + 4 ≤ L → g.mfg_data.length ≤ 27) ∧
      broadcaster_multiple w L n g = none) := by
  constructor
  · intro hn
    have h := BT_MFG_DATA_LEN_eq hw hL hn
    refine ⟨h, ?_⟩
    rw [broadcaster_multiple_isSome_iff, hlen, h]
  · intro hdef
    constructor
    · intro hn
      rw [hlen, BT_MFG_DATA_LEN_eq hw hL hn]
      unfold BT_AD_DATA_LEN_MAX_DEFAULT at hdef
      omega
    · apply broadcaster_multiple_eq_none
      have h1 := BT_MFG_DATA_LEN_le_max w L n
      have h2 : BT_MFG_DATA_LEN_MAX L = 29 := by rw [hdef]; decide
      omega

/-- Witness for C10: with 32-bit `size_t`, from the initial globals, the copy is
in bounds for `BT_AD_DATA_LEN_MAX = 251` and a 10-character name, and out of
bounds for the default 31 with an empty name and with a 28-character name. -/
theorem C10_copy_in_bounds_iff_witness :
    (broadcaster_multiple 32 251 10 (globals_init 32 251 10)).isSome = true ∧
    (globals_init 32 31 0).mfg_data.length ≤ 27 ∧
    broadcaster_multiple 32 31 0 (globals_init 32 31 0) = none ∧
    broadcaster_multiple 32 31 28 (globals_init 32 31 28) = none :=
  ⟨((C10_copy_in_bounds_iff 32 251 10 (globals_init 32 251 10) (by decide) (by decide)
      (mfg_data_init_length _)).1 (by decide)).2.2 (by decide),
   ((C10_copy_in_bounds_iff 32 31 0 (globals_init 32 31 0) (by decide) (by decide)
      (mfg_data_init_length _)).2 rfl).1 (by decide),
   ((C10_copy_in_bounds_iff 32 31 0 (globals_init 32 31 0) (by decide) (by decide)
      (mfg_data_init_length _)).2 rfl).2,
   ((C10_copy_in_bounds_iff 32 31 28 (globals_init 32 31 28) (by decide) (by decide)
      (mfg_data_init_length _)).2 rfl).2⟩

end BroadcasterMultiple
